import Mathlib

/-!
# Retail-Lakehouse ETL pipeline: a shallow embedding

This file embeds the transformation core of `notebooks/retail_etl.py`
(a PySpark ETL script) as executable Lean definitions and proves the
spec's testable properties about it.

Modelling conventions:
* a dataframe is a `List` of row structures; Spark's nullable columns
  become `Option` fields (the cleaned schema stays nullable after
  `dropna`, so the cleaned row keeps `Option` types and the non-nullness
  is proved as an invariant);
* decimal values (`Price`, `TotalAmount`) are `Rat`, so `round(_, 2)`
  (Spark rounds HALF_UP) is exact;
* timestamps are `Nat` seconds since the Unix epoch; the raw invoice-date
  cell is a `DateCell` that is either missing, a valid timestamp, or a
  malformed string, and `to_timestamp` maps valid cells to `some` and
  everything else to `none` (Spark returns null for unparseable input);
* `dropDuplicates` keeps the first row per key, one deterministic
  instance of the engine's "arbitrary survivor" policy;
* Spark aggregate semantics are kept: `count(col)`/`sum(col)`/
  `countDistinct(col)`/`max(col)` ignore null cells, while
  `.distinct()` treats null as one more distinct value.
-/

namespace RetailETL

/-- Java `BigDecimal` HALF_UP rounding to an integer: ties away from zero. -/
def halfUp (x : Rat) : Int :=
  if 0 ≤ x then ⌊x + 1/2⌋ else -⌊-x + 1/2⌋

/-- Spark's `round(col, 2)`: HALF_UP rounding to two decimal places. -/
def round2 (x : Rat) : Rat :=
  (halfUp (x * 100) : Rat) / 100

/-- A raw invoice-date cell: missing (null), a value that parses to a
timestamp, or a malformed value that does not. -/
inductive DateCell : Type
  | missing : DateCell
  | valid : Nat → DateCell
  | malformed : String → DateCell
deriving DecidableEq

/-- Spark's `to_timestamp`: null and unparseable cells become null. -/
def toTimestamp : DateCell → Option Nat
  | .missing => none
  | .valid t => some t
  | .malformed _ => none

/-- One raw row as ingested (both sheets concatenated, `fiscal_year`
stamped at ingestion); every data column is nullable. -/
structure RawRow : Type where
  invoice : Option String
  stockCode : Option String
  description : Option String
  quantity : Option Int
  price : Option Rat
  invoiceDate : DateCell
  customerId : Option String
  country : Option String
  fiscalYear : String
deriving DecidableEq

/-- One row of `df_cleaned`.  The schema stays nullable (Spark's `dropna`
does not change column nullability); `InvoiceDate` is the parsed
timestamp and `TotalAmount` the derived amount column. -/
structure CleanedRow : Type where
  invoice : Option String
  stockCode : Option String
  description : Option String
  quantity : Option Int
  price : Option Rat
  invoiceDate : Option Nat
  totalAmount : Option Rat
  customerId : Option String
  country : Option String
  fiscalYear : String
deriving DecidableEq

/-- The row-wise part of the cleaning stage:
`dropna(subset=["Invoice","StockCode","Quantity","Price"])`, then
`filter(Quantity > 0)`, `filter(Price > 0)`, then
`withColumn("InvoiceDate", to_timestamp(...))` and
`withColumn("TotalAmount", round(Quantity * Price, 2))`.
Returns `none` when one of the filters drops the row. -/
def cleanRow (r : RawRow) : Option CleanedRow :=
  match r.invoice, r.stockCode, r.quantity, r.price with
  | some inv, some sc, some q, some p =>
      if 0 < q ∧ 0 < p then
        some { invoice := some inv
               stockCode := some sc
               description := r.description
               quantity := some q
               price := some p
               invoiceDate := toTimestamp r.invoiceDate
               totalAmount := some (round2 (q * p))
               customerId := r.customerId
               country := r.country
               fiscalYear := r.fiscalYear }
      else none
  | _, _, _, _ => none

/-- The deduplication key of `dropDuplicates(["Invoice","StockCode","InvoiceDate"])`.
Null cells are ordinary key values for `dropDuplicates`. -/
def keyOf (c : CleanedRow) : Option String × Option String × Option Nat :=
  (c.invoice, c.stockCode, c.invoiceDate)

/-- Keep the first row per key among rows whose key is not in `seen`. -/
def dedupByAux {α κ : Type} [DecidableEq κ] (k : α → κ) (seen : List κ) :
    List α → List α
  | [] => []
  | x :: xs =>
      if k x ∈ seen then dedupByAux k seen xs
      else x :: dedupByAux k (k x :: seen) xs

/-- `dropDuplicates` on a key function: keeps the first row per key. -/
def dedupBy {α κ : Type} [DecidableEq κ] (k : α → κ) (l : List α) : List α :=
  dedupByAux k [] l

/-- The cleaned table just before deduplication: the surviving rows, with
parsed timestamp and derived amount. -/
def df_preDedup (rs : List RawRow) : List CleanedRow :=
  rs.filterMap cleanRow

/-- `df_cleaned`: the full cleaning stage of the script (lines 58-64). -/
def df_cleaned (rs : List RawRow) : List CleanedRow :=
  dedupBy keyOf (df_preDedup rs)

/-! ## Calendar functions for the enrichment stage -/

/-- Gregorian civil date `(year, month, day)` from a day number counted
from the Unix epoch (valid for non-negative day numbers). -/
def civilFromDays (days : Nat) : Nat × Nat × Nat :=
  let z := days + 719468
  let era := z / 146097
  let doe := z % 146097
  let yoe := (doe - doe / 1460 + doe / 36524 - doe / 146096) / 365
  let y := yoe + era * 400
  let doy := doe - (365 * yoe + yoe / 4 - yoe / 100)
  let mp := (5 * doy + 2) / 153
  let d := doy - (153 * mp + 2) / 5 + 1
  let m := if mp < 10 then mp + 3 else mp - 9
  (if m ≤ 2 then y + 1 else y, m, d)

/-- Spark's `year(ts)`. -/
def yearOf (t : Nat) : Nat := (civilFromDays (t / 86400)).1

/-- Spark's `month(ts)`. -/
def monthOf (t : Nat) : Nat := (civilFromDays (t / 86400)).2.1

/-- Spark's `quarter(ts)`: 1-4 from the month. -/
def quarterOf (t : Nat) : Nat := (monthOf t - 1) / 3 + 1

/-- Spark's `hour(ts)`: hour of day, 0-23. -/
def hourOf (t : Nat) : Nat := t % 86400 / 3600

/-- Spark's `date_format(ts, "EEEE")`: full weekday name (day 0 of the
Unix epoch was a Thursday). -/
def dayNameOf (t : Nat) : String :=
  match (t / 86400 + 4) % 7 with
  | 0 => "Sunday" | 1 => "Monday" | 2 => "Tuesday" | 3 => "Wednesday"
  | 4 => "Thursday" | 5 => "Friday" | _ => "Saturday"

/-- Spark's `date_format(ts, "MMMM")`: full month name. -/
def monthNameOf (t : Nat) : String :=
  match monthOf t with
  | 1 => "January" | 2 => "February" | 3 => "March" | 4 => "April"
  | 5 => "May" | 6 => "June" | 7 => "July" | 8 => "August"
  | 9 => "September" | 10 => "October" | 11 => "November" | _ => "December"

/-- One row of `df_enriched`: all columns of the cleaned row plus the six
derived calendar columns.  Each derived column is null exactly when the
row's `InvoiceDate` is null (Spark's calendar functions propagate null). -/
structure EnrichedRow : Type where
  base : CleanedRow
  year : Option Nat
  month : Option Nat
  quarter : Option Nat
  dayName : Option String
  hour : Option Nat
  monthName : Option String
deriving DecidableEq

/-- The per-row enrichment: six `withColumn` calls on `InvoiceDate`. -/
def enrich (c : CleanedRow) : EnrichedRow :=
  { base := c
    year := c.invoiceDate.map yearOf
    month := c.invoiceDate.map monthOf
    quarter := c.invoiceDate.map quarterOf
    dayName := c.invoiceDate.map dayNameOf
    hour := c.invoiceDate.map hourOf
    monthName := c.invoiceDate.map monthNameOf }

/-- `df_enriched`: the enrichment stage of the script (lines 69-75). -/
def df_enriched (rs : List RawRow) : List EnrichedRow :=
  (df_cleaned rs).map enrich

/-! ## Spark aggregate primitives (null-ignoring, as in Spark SQL) -/

/-- Spark's `sum("TotalAmount")` over a group: nulls are ignored (the
empty sum is rendered as `0`). -/
def sumAmt (g : List CleanedRow) : Rat :=
  (g.filterMap (·.totalAmount)).sum

/-- Spark's `count("Invoice")` over a group: counts non-null cells. -/
def countInvoice (g : List CleanedRow) : Nat :=
  (g.filterMap (·.invoice)).length

/-- Spark's `countDistinct("Customer ID")` over a group: distinct
non-null cells. -/
def countDistinctCustomers (g : List CleanedRow) : Nat :=
  (g.filterMap (·.customerId)).dedup.length

/-- The maximum of a list of naturals, `none` on the empty list. -/
def aggMax : List Nat → Option Nat
  | [] => none
  | x :: xs => some (match aggMax xs with
      | none => x
      | some m => max x m)

/-- Spark's `max("InvoiceDate")` over a group: nulls are ignored, null
when no row has a timestamp. -/
def maxDate (g : List CleanedRow) : Option Nat :=
  aggMax (g.filterMap (·.invoiceDate))

/-- Spark's `datediff(end, start)`: difference of the civil day numbers. -/
def datediff (e s : Nat) : Int :=
  (e / 86400 : Nat) - (s / 86400 : Nat)

/-- `groupBy(k).agg(...)`: one output row per distinct key, carrying the
aggregate of the rows with that key. -/
def groupBy {α β κ : Type} [DecidableEq κ] (k : α → κ) (agg : List α → β)
    (l : List α) : List (κ × β) :=
  (l.map k).dedup.map fun c => (c, agg (l.filter fun r => decide (k r = c)))

/-! ## The four aggregate tables (script lines 82-115) -/

/-- One `customer_rfm` value row. -/
structure RFMAgg : Type where
  lastPurchaseDate : Option Nat
  frequency : Nat
  monetaryValue : Rat
  recency : Option Int
deriving DecidableEq

/-- `customer_rfm`: group the cleaned table by `Customer ID`; `Recency`
is `datediff` against the single global `max_date` of the cleaned table
(script lines 82-89); it is null when either side is null. -/
def customer_rfm (rs : List RawRow) : List (Option String × RFMAgg) :=
  let cl := df_cleaned rs
  let m := maxDate cl
  groupBy (·.customerId)
    (fun g =>
      { lastPurchaseDate := maxDate g
        frequency := countInvoice g
        monetaryValue := sumAmt g
        recency := match m, maxDate g with
          | some e, some s => some (datediff e s)
          | _, _ => none })
    cl

/-- One `product_analysis` value row. -/
structure ProductAgg : Type where
  totalQuantitySold : Int
  totalRevenue : Rat
  uniqueCustomers : Nat
deriving DecidableEq

/-- `product_analysis`: group the cleaned table by
`(StockCode, Description)` (script lines 93-98). -/
def product_analysis (rs : List RawRow) :
    List ((Option String × Option String) × ProductAgg) :=
  groupBy (fun r => (r.stockCode, r.description))
    (fun g =>
      { totalQuantitySold := (g.filterMap (·.quantity)).sum
        totalRevenue := sumAmt g
        uniqueCustomers := countDistinctCustomers g })
    (df_cleaned rs)

/-- One `country_sales` value row. -/
structure CountryAgg : Type where
  totalRevenue : Rat
  totalOrders : Nat
  uniqueCustomers : Nat
deriving DecidableEq

/-- `country_sales`: group the cleaned table by `Country`
(script lines 102-107). -/
def country_sales (rs : List RawRow) : List (Option String × CountryAgg) :=
  groupBy (·.country)
    (fun g =>
      { totalRevenue := sumAmt g
        totalOrders := countInvoice g
        uniqueCustomers := countDistinctCustomers g })
    (df_cleaned rs)

/-- One `monthly_trends` value row. -/
structure MonthlyAgg : Type where
  monthlyRevenue : Rat
  monthlyOrders : Nat
deriving DecidableEq

/-- `monthly_trends`: group the enriched table by
`(fiscal_year, Year, Month, MonthName)` (script lines 111-115). -/
def monthly_trends (rs : List RawRow) :
    List ((String × Option Nat × Option Nat × Option String) × MonthlyAgg) :=
  groupBy (fun e => (e.base.fiscalYear, e.year, e.month, e.monthName))
    (fun g =>
      { monthlyRevenue := sumAmt (g.map (·.base))
        monthlyOrders := countInvoice (g.map (·.base)) })
    (df_enriched rs)

/-! ## The summary reporter (script lines 141-144) -/

/-- `total_revenue`: `df_cleaned.agg(sum("TotalAmount"))`. -/
def total_revenue (rs : List RawRow) : Rat :=
  sumAmt (df_cleaned rs)

/-- `total_orders`: `df_cleaned.select("Invoice").distinct().count()`;
`.distinct()` treats a null cell as one more distinct value. -/
def total_orders (rs : List RawRow) : Nat :=
  ((df_cleaned rs).map (·.invoice)).dedup.length

/-- `unique_customers`: `df_cleaned.select("Customer ID").distinct().count()`;
`.distinct()` treats a null cell as one more distinct value. -/
def unique_customers (rs : List RawRow) : Nat :=
  ((df_cleaned rs).map (·.customerId)).dedup.length

/-- `unique_products`: `df_cleaned.select("StockCode").distinct().count()`. -/
def unique_products (rs : List RawRow) : Nat :=
  ((df_cleaned rs).map (·.stockCode)).dedup.length

/-! ## Helper lemmas about `dedupBy` -/

theorem mem_dedupByAux {α κ : Type} [DecidableEq κ] (k : α → κ) (c : α) :
    ∀ (l : List α) (seen : List κ),
      c ∈ dedupByAux k seen l ↔
        k c ∉ seen ∧ l.find? (fun y => decide (k y = k c)) = some c := by
  intro l
  induction l with
  | nil => intro seen; simp [dedupByAux]
  | cons x xs ih =>
    intro seen
    by_cases hx : k x ∈ seen
    · rw [dedupByAux, if_pos hx, ih]
      by_cases hk : k x = k c
      · constructor
        · rintro ⟨hnot, _⟩; exact absurd (hk ▸ hx) hnot
        · rintro ⟨hnot, _⟩; exact absurd (hk ▸ hx) hnot
      · rw [List.find?_cons_of_neg _ (by simpa using hk)]
    · rw [dedupByAux, if_neg hx]
      simp only [List.mem_cons, ih]
      by_cases hk : k x = k c
      · rw [List.find?_cons_of_pos _ (by simpa using hk)]
        constructor
        · rintro (rfl | ⟨hnot, _⟩)
          · exact ⟨hk ▸ hx, rfl⟩
          · exact absurd (Or.inl hk.symm) hnot
        · rintro ⟨_, hfind⟩
          injection hfind with h
          exact Or.inl h.symm
      · rw [List.find?_cons_of_neg _ (by simpa using hk)]
        constructor
        · rintro (rfl | ⟨hnot, hfind⟩)
          · exact absurd rfl hk
          · exact ⟨fun hmem => hnot (Or.inr hmem), hfind⟩
        · rintro ⟨hnot, hfind⟩
          refine Or.inr ⟨?_, hfind⟩
          rintro (h | h)
          · exact hk h.symm
          · exact hnot h

/-- Membership in the deduplicated table: `c` survives iff it is the
first row of the input with its key. -/
theorem mem_dedupBy {α κ : Type} [DecidableEq κ] (k : α → κ) (c : α)
    (l : List α) :
    c ∈ dedupBy k l ↔ l.find? (fun y => decide (k y = k c)) = some c := by
  rw [dedupBy, mem_dedupByAux]
  simp

theorem dedupBy_subset {α κ : Type} [DecidableEq κ] (k : α → κ) (c : α)
    (l : List α) (h : c ∈ dedupBy k l) : c ∈ l :=
  List.mem_of_find?_eq_some ((mem_dedupBy k c l).mp h)

theorem pairwise_dedupByAux {α κ : Type} [DecidableEq κ] (k : α → κ) :
    ∀ (l : List α) (seen : List κ),
      (dedupByAux k seen l).Pairwise (fun a b => k a ≠ k b) := by
  intro l
  induction l with
  | nil => intro seen; simp [dedupByAux]
  | cons x xs ih =>
    intro seen
    by_cases hx : k x ∈ seen
    · rw [dedupByAux, if_pos hx]; exact ih seen
    · rw [dedupByAux, if_neg hx]
      refine List.Pairwise.cons ?_ (ih (k x :: seen))
      intro b hb
      have := ((mem_dedupByAux k b xs (k x :: seen)).mp hb).1
      simp only [List.mem_cons, not_or] at this
      exact fun h => this.1 h.symm

/-- The deduplicated table has pairwise distinct keys. -/
theorem pairwise_dedupBy {α κ : Type} [DecidableEq κ] (k : α → κ)
    (l : List α) : (dedupBy k l).Pairwise (fun a b => k a ≠ k b) :=
  pairwise_dedupByAux k l []

theorem length_filter_key_of_pairwise {α κ : Type} [DecidableEq κ]
    (k : α → κ) (key0 : κ) :
    ∀ L : List α, L.Pairwise (fun a b => k a ≠ k b) →
      ∀ c ∈ L, k c = key0 →
        (L.filter fun r => decide (k r = key0)).length = 1 := by
  intro L
  induction L with
  | nil => intro _ c hc; exact absurd hc (List.not_mem_nil c)
  | cons a L ih =>
    intro hpw c hc hkey
    obtain ⟨ha, hpw'⟩ := List.pairwise_cons.mp hpw
    rcases List.mem_cons.mp hc with rfl | hc'
    · rw [List.filter_cons_of_pos (by simpa using hkey)]
      have : (L.filter fun r => decide (k r = key0)).length = 0 := by
        rw [List.length_eq_zero, List.filter_eq_nil_iff]
        intro b hb
        simpa using fun hkb => ha b hb (hkey.trans hkb.symm)
      simp [this]
    · rw [List.filter_cons_of_neg]
      · exact ih hpw' c hc' hkey
      · simpa using fun hka => (ha c hc') (hka.trans hkey.symm)

/-- Every key of the input has exactly one surviving row in the
deduplicated table. -/
theorem length_filter_key_dedupBy {α κ : Type} [DecidableEq κ]
    (k : α → κ) (l : List α) (key0 : κ) (h : key0 ∈ l.map k) :
    ((dedupBy k l).filter fun r => decide (k r = key0)).length = 1 := by
  obtain ⟨r, hr, hkey⟩ := List.mem_map.mp h
  have hsome : (l.find? fun y => decide (k y = key0)).isSome :=
    List.find?_isSome.mpr ⟨r, hr, by simpa using hkey⟩
  obtain ⟨c, hc⟩ := Option.isSome_iff_exists.mp hsome
  have hkc : k c = key0 := by simpa using List.find?_some hc
  have hmem : c ∈ dedupBy k l := by
    rw [mem_dedupBy, hkc]
    exact hc
  exact length_filter_key_of_pairwise k key0 (dedupBy k l)
    (pairwise_dedupBy k l) c hmem hkc

/-! ## Helper lemmas about sums over groups -/

theorem sum_filter_add_sum_filter_not {α : Type} (f : α → Rat) (p : α → Bool) :
    ∀ l : List α,
      ((l.filter p).map f).sum + ((l.filter fun a => !p a).map f).sum
        = (l.map f).sum := by
  intro l
  induction l with
  | nil => simp
  | cons a l ih =>
    by_cases h : p a
    · rw [List.filter_cons_of_pos h, List.filter_cons_of_neg (by simp [h]),
        List.map_cons, List.sum_cons, List.map_cons, List.sum_cons,
        add_assoc, ih]
    · have hb : p a = false := by simpa using h
      rw [List.filter_cons_of_neg (by simp [hb]),
        List.filter_cons_of_pos (by simp [hb]),
        List.map_cons, List.sum_cons, List.map_cons, List.sum_cons,
        add_left_comm, ih]

theorem sum_fiber {α κ : Type} [DecidableEq κ] (k : α → κ) (f : α → Rat) :
    ∀ cs : List κ, cs.Nodup → ∀ l : List α, (∀ a ∈ l, k a ∈ cs) →
      (cs.map fun c =>
          ((l.filter fun a => decide (k a = c)).map f).sum).sum
        = (l.map f).sum := by
  intro cs
  induction cs with
  | nil =>
    intro _ l hcov
    cases l with
    | nil => simp
    | cons a t => exact absurd (hcov a (List.mem_cons_self a t)) (by simp)
  | cons c cs ih =>
    intro hnd l hcov
    obtain ⟨hc, hnd'⟩ := List.nodup_cons.mp hnd
    have hrest :
        (cs.map fun c' =>
            ((l.filter fun a => decide (k a = c')).map f).sum).sum
          = (((l.filter fun a => !decide (k a = c)).map f).sum) := by
      have hmapeq : ∀ c' ∈ cs,
          ((l.filter fun a => decide (k a = c')).map f).sum
            = (((l.filter fun a => !decide (k a = c)).filter
                fun a => decide (k a = c')).map f).sum := by
        intro c' hc'
        rw [List.filter_filter]
        have hfeq : (l.filter fun a => decide (k a = c') && !decide (k a = c))
            = l.filter fun a => decide (k a = c') := by
          apply List.filter_congr
          intro a _
          by_cases hka : k a = c'
          · have hcc : ¬(c' = c) := fun hh => hc (hh ▸ hc')
            simp [hka, hcc]
          · simp [hka]
        rw [hfeq]
      rw [List.map_congr_left hmapeq]
      exact ih hnd' (l.filter fun a => !decide (k a = c)) (by
        intro a ha
        obtain ⟨hal, hane⟩ := List.mem_filter.mp ha
        simp only [Bool.not_eq_true', decide_eq_false_iff_not] at hane
        rcases List.mem_cons.mp (hcov a hal) with h | h
        · exact absurd h hane
        · exact h)
    calc (((c :: cs).map fun c' =>
            ((l.filter fun a => decide (k a = c')).map f).sum).sum)
        = ((l.filter fun a => decide (k a = c)).map f).sum
            + (cs.map fun c' =>
                ((l.filter fun a => decide (k a = c')).map f).sum).sum := by
          simp
      _ = ((l.filter fun a => decide (k a = c)).map f).sum
            + ((l.filter fun a => !decide (k a = c)).map f).sum := by
          rw [hrest]
      _ = (l.map f).sum := sum_filter_add_sum_filter_not f _ l

theorem sum_filterMap_eq_sum_getD {α : Type} (g : α → Option Rat) :
    ∀ l : List α, (l.filterMap g).sum = (l.map fun a => (g a).getD 0).sum := by
  intro l
  induction l with
  | nil => simp
  | cons a l ih =>
    cases h : g a with
    | none => simp [List.filterMap_cons, h, ih]
    | some v => simp [List.filterMap_cons, h, ih]

/-! ## Helper lemmas about the cleaned rows -/

/-- `cleanRow` succeeds exactly on rows with non-null invoice, stock code,
quantity and price, positive quantity and positive price.  The
invoice-date cell plays no part. -/
theorem cleanRow_isSome_iff (r : RawRow) :
    (cleanRow r).isSome ↔
      (∃ v, r.invoice = some v) ∧ (∃ v, r.stockCode = some v) ∧
        (∃ q, r.quantity = some q ∧ 0 < q) ∧
        (∃ p, r.price = some p ∧ 0 < p) := by
  rcases hi : r.invoice with _ | inv <;>
    rcases hs : r.stockCode with _ | sc <;>
      rcases hq : r.quantity with _ | q <;>
        rcases hp : r.price with _ | p <;>
          simp [cleanRow, hi, hs, hq, hp]

/-- What a successful `cleanRow` looks like. -/
theorem cleanRow_eq_some (r : RawRow) (c : CleanedRow)
    (h : cleanRow r = some c) :
    ∃ inv sc q p, r.invoice = some inv ∧ r.stockCode = some sc ∧
      r.quantity = some q ∧ r.price = some p ∧ 0 < q ∧ 0 < p ∧
      c = { invoice := some inv
            stockCode := some sc
            description := r.description
            quantity := some q
            price := some p
            invoiceDate := toTimestamp r.invoiceDate
            totalAmount := some (round2 (q * p))
            customerId := r.customerId
            country := r.country
            fiscalYear := r.fiscalYear } := by
  rcases hi : r.invoice with _ | inv <;>
    rcases hs : r.stockCode with _ | sc <;>
      rcases hq : r.quantity with _ | q <;>
        rcases hp : r.price with _ | p <;>
          simp [cleanRow, hi, hs, hq, hp] at h
  obtain ⟨⟨hq0, hp0⟩, hc⟩ := h
  exact ⟨inv, sc, q, p, rfl, rfl, rfl, rfl, hq0, hp0, hc.symm⟩

/-- Every row of the cleaned table has non-null invoice, stock code,
quantity, price and total amount, and its total amount is the rounded
product of its quantity and price. -/
theorem df_cleaned_shape (rs : List RawRow) (c : CleanedRow)
    (h : c ∈ df_cleaned rs) :
    ∃ inv sc q p, c.invoice = some inv ∧ c.stockCode = some sc ∧
      c.quantity = some q ∧ c.price = some p ∧ 0 < q ∧ 0 < p ∧
      c.totalAmount = some (round2 (q * p)) := by
  have hpre : c ∈ df_preDedup rs := dedupBy_subset keyOf c _ h
  obtain ⟨r, _, hcr⟩ := List.mem_filterMap.mp hpre
  obtain ⟨inv, sc, q, p, _, _, _, _, hq, hp, hc⟩ := cleanRow_eq_some r c hcr
  exact ⟨inv, sc, q, p, by rw [hc], by rw [hc], by rw [hc], by rw [hc],
    hq, hp, by rw [hc]⟩

/-! ## Helper lemmas about `aggMax` and counting -/

theorem aggMax_mem : ∀ (l : List Nat) (m : Nat), aggMax l = some m → m ∈ l := by
  intro l
  induction l with
  | nil => intro m h; exact absurd h (by simp [aggMax])
  | cons x xs ih =>
    intro m h
    cases hxs : aggMax xs with
    | none =>
      simp [aggMax, hxs] at h
      exact h ▸ List.mem_cons_self x xs
    | some m' =>
      simp [aggMax, hxs] at h
      rcases Nat.le_total x m' with hle | hle
      · rw [max_eq_right hle] at h
        exact h ▸ List.mem_cons_of_mem x (ih m' hxs)
      · rw [max_eq_left hle] at h
        exact h ▸ List.mem_cons_self x xs

theorem le_aggMax : ∀ l : List Nat, ∀ x ∈ l, ∀ m, aggMax l = some m → x ≤ m := by
  intro l
  induction l with
  | nil => intro x hx; exact absurd hx (List.not_mem_nil x)
  | cons y ys ih =>
    intro x hx m h
    cases hys : aggMax ys with
    | none =>
      simp [aggMax, hys] at h
      cases ys with
      | nil =>
        rcases List.mem_cons.mp hx with rfl | hx'
        · exact h ▸ Nat.le_refl x
        · exact absurd hx' (List.not_mem_nil x)
      | cons z zs => exact absurd hys (by simp [aggMax])
    | some m' =>
      simp [aggMax, hys] at h
      rcases List.mem_cons.mp hx with rfl | hx'
      · exact h ▸ le_max_left x m'
      · exact h ▸ le_trans (ih x hx' m' hys) (le_max_right y m')

theorem length_filterMap_of_isSome {α β : Type} (g : α → Option β) :
    ∀ l : List α, (∀ a ∈ l, (g a).isSome) →
      (l.filterMap g).length = l.length := by
  intro l
  induction l with
  | nil => intro _; simp
  | cons a l ih =>
    intro h
    obtain ⟨v, hv⟩ :=
      Option.isSome_iff_exists.mp (h a (List.mem_cons_self a l))
    rw [List.filterMap_cons, hv, List.length_cons, List.length_cons,
      ih fun b hb => h b (List.mem_cons_of_mem a hb)]

/-- Distinct values of a nullable column, when null occurs, are the
distinct non-null values plus one. -/
theorem dedup_length_of_mem_none {α : Type} [DecidableEq α]
    (l : List (Option α)) (h : (none : Option α) ∈ l) :
    l.dedup.length = (l.filterMap id).dedup.length + 1 := by
  have hS : l.toFinset
      = insert none ((l.filterMap id).toFinset.image some) := by
    ext o
    cases o with
    | none => simp [h]
    | some a => simp [List.mem_toFinset, List.mem_filterMap]
  calc l.dedup.length
      = l.toFinset.card := (List.card_toFinset l).symm
    _ = (insert (none : Option α)
          ((l.filterMap id).toFinset.image some)).card := by rw [hS]
    _ = ((l.filterMap id).toFinset.image some).card + 1 :=
        Finset.card_insert_of_not_mem (by simp)
    _ = (l.filterMap id).toFinset.card + 1 := by
        rw [Finset.card_image_of_injective _ (Option.some_injective α)]
    _ = (l.filterMap id).dedup.length + 1 := by rw [List.card_toFinset]

/-- A cleaned-table fiber sum: grouping the cleaned table by any key and
summing `TotalAmount` per group, the group sums add up to the table sum. -/
theorem sum_sumAmt_fibers {κ : Type} [DecidableEq κ] (k : CleanedRow → κ)
    (cl : List CleanedRow) :
    ((cl.map k).dedup.map fun c =>
        sumAmt (cl.filter fun r => decide (k r = c))).sum = sumAmt cl := by
  have hnod := List.nodup_dedup (cl.map k)
  have hcov : ∀ a ∈ cl, k a ∈ (cl.map k).dedup := fun a ha =>
    List.mem_dedup.mpr (List.mem_map_of_mem k ha)
  have hfib := sum_fiber k (fun r => (r.totalAmount).getD 0)
    ((cl.map k).dedup) hnod cl hcov
  have hpt : ∀ c ∈ (cl.map k).dedup,
      sumAmt (cl.filter fun r => decide (k r = c))
        = ((cl.filter fun r => decide (k r = c)).map
            fun r => (r.totalAmount).getD 0).sum := by
    intro c _
    rw [sumAmt, sum_filterMap_eq_sum_getD]
  rw [List.map_congr_left hpt, hfib, sumAmt, sum_filterMap_eq_sum_getD]

/-! ## Concrete rows used to witness the theorems -/

/-- A well-formed raw row: all columns present, positive quantity and
price, a parseable invoice date. -/
def rawOk : RawRow :=
  { invoice := some "A1"
    stockCode := some "X"
    description := some "LAMP"
    quantity := some 2
    price := some 3
    invoiceDate := .valid 1000000
    customerId := some "C1"
    country := some "UK"
    fiscalYear := "2009-2010" }

/-- A raw row that passes every null/positivity filter but whose invoice
date does not parse, and whose customer identifier is null. -/
def rawBadDate : RawRow :=
  { invoice := some "A2"
    stockCode := some "X"
    description := none
    quantity := some 1
    price := some 3
    invoiceDate := .malformed "not-a-date"
    customerId := none
    country := some "UK"
    fiscalYear := "2009-2010" }

/-- The cleaned image of `rawOk`. -/
def cOk : CleanedRow :=
  { invoice := some "A1"
    stockCode := some "X"
    description := some "LAMP"
    quantity := some 2
    price := some 3
    invoiceDate := some 1000000
    totalAmount := some (round2 ((2 : Int) * (3 : Rat)))
    customerId := some "C1"
    country := some "UK"
    fiscalYear := "2009-2010" }

/-- The cleaned image of `rawBadDate`: it survives cleaning with a null
`InvoiceDate`. -/
def cBad : CleanedRow :=
  { invoice := some "A2"
    stockCode := some "X"
    description := none
    quantity := some 1
    price := some 3
    invoiceDate := none
    totalAmount := some (round2 ((1 : Int) * (3 : Rat)))
    customerId := none
    country := some "UK"
    fiscalYear := "2009-2010" }

/-! ## Concrete evaluations used by the witnesses -/

theorem df_cleaned_rawOk : df_cleaned [rawOk] = [cOk] := by
  norm_num [df_cleaned, df_preDedup, cleanRow, dedupBy, dedupByAux,
    rawOk, cOk, toTimestamp, List.filterMap]

theorem df_cleaned_rawBadDate : df_cleaned [rawBadDate] = [cBad] := by
  norm_num [df_cleaned, df_preDedup, cleanRow, dedupBy, dedupByAux,
    rawBadDate, cBad, toTimestamp, List.filterMap]

theorem df_cleaned_pair : df_cleaned [rawOk, rawBadDate] = [cOk, cBad] := by
  norm_num [df_cleaned, df_preDedup, cleanRow, dedupBy, dedupByAux,
    rawOk, rawBadDate, cOk, cBad, toTimestamp, keyOf, List.filterMap]
  exact fun h => absurd h (by decide)

/-! ## The claims -/

/-- C1 (amended): a raw row passes the row-wise part of Cleaning iff its
invoice, stock code, quantity and price are non-null with positive
quantity and price — whether its invoice date parses plays no role (an
unparseable date only yields a null `InvoiceDate`); a candidate row is in
the pre-deduplication table iff some input row cleans to it; and a row is
in the cleaned table iff it is the first pre-deduplication candidate with
its (Invoice, StockCode, InvoiceDate) key. -/
theorem c1_cleaning_membership :
    (∀ r : RawRow, (cleanRow r).isSome ↔
        (∃ v, r.invoice = some v) ∧ (∃ v, r.stockCode = some v) ∧
          (∃ q, r.quantity = some q ∧ 0 < q) ∧
          (∃ p, r.price = some p ∧ 0 < p))
    ∧ (∀ (rs : List RawRow) (c : CleanedRow),
        c ∈ df_preDedup rs ↔ ∃ r ∈ rs, cleanRow r = some c)
    ∧ (∀ (rs : List RawRow) (c : CleanedRow),
        c ∈ df_cleaned rs ↔
          (df_preDedup rs).find? (fun y => decide (keyOf y = keyOf c))
            = some c) :=
  ⟨cleanRow_isSome_iff,
   fun _ _ => List.mem_filterMap,
   fun rs c => mem_dedupBy keyOf c (df_preDedup rs)⟩

/-- C1, counterexample to the claim as stated: `rawBadDate`'s invoice
date does not parse to a timestamp, yet the row survives Cleaning (with a
null `InvoiceDate`), contradicting "appears iff ... its invoice-date
value parses to a valid timestamp". -/
theorem c1_counterexample :
    toTimestamp rawBadDate.invoiceDate = none
      ∧ df_cleaned [rawBadDate] = [cBad] :=
  ⟨rfl, df_cleaned_rawBadDate⟩

/-- C2: the cleaned table has pairwise distinct
(Invoice, StockCode, InvoiceDate) keys, and every key occurring among the
pre-deduplication candidates is represented by exactly one cleaned row. -/
theorem c2_dedup_key_unique (rs : List RawRow) :
    List.Pairwise (fun a b => keyOf a ≠ keyOf b) (df_cleaned rs)
    ∧ ∀ key0 ∈ (df_preDedup rs).map keyOf,
        ((df_cleaned rs).filter fun r => decide (keyOf r = key0)).length
          = 1 :=
  ⟨pairwise_dedupBy keyOf (df_preDedup rs),
   fun key0 h => length_filter_key_dedupBy keyOf (df_preDedup rs) key0 h⟩

/-- C3: the per-country revenue totals and the per-customer monetary
values each sum to the Summary Reporter's total revenue, which is the sum
of `TotalAmount` over the cleaned table. -/
theorem c3_revenue_reconciles (rs : List RawRow) :
    ((country_sales rs).map fun p => p.2.totalRevenue).sum
        = total_revenue rs
    ∧ ((customer_rfm rs).map fun p => p.2.monetaryValue).sum
        = total_revenue rs
    ∧ total_revenue rs = sumAmt (df_cleaned rs) := by
  refine ⟨?_, ?_, rfl⟩
  · rw [country_sales, groupBy, total_revenue, List.map_map]
    exact sum_sumAmt_fibers (fun r => r.country) (df_cleaned rs)
  · rw [customer_rfm, groupBy, total_revenue, List.map_map]
    exact sum_sumAmt_fibers (fun r => r.customerId) (df_cleaned rs)

/-- C4: every cleaned row's `TotalAmount` is exactly
`round(Quantity * Price, 2)` for its own quantity and price. -/
theorem c4_total_amount (rs : List RawRow) (c : CleanedRow)
    (h : c ∈ df_cleaned rs) :
    ∃ q p, c.quantity = some q ∧ c.price = some p ∧
      c.totalAmount = some (round2 (q * p)) := by
  obtain ⟨_, _, q, p, _, _, hq, hp, _, _, ht⟩ := df_cleaned_shape rs c h
  exact ⟨q, p, hq, hp, ht⟩

/-- C5: enrichment is a one-to-one, row-preserving map: the enriched
table has the same number of rows as the cleaned table, rows correspond
pointwise, and each enriched row keeps all columns of its source cleaned
row unchanged (the `EnrichedRow` column set strictly extends the cleaned
one by the six calendar fields). -/
theorem c5_enrichment_preserves_rows (rs : List RawRow) :
    (df_enriched rs).length = (df_cleaned rs).length
    ∧ List.Forall₂ (fun e c => e.base = c) (df_enriched rs) (df_cleaned rs)
    ∧ ∀ c : CleanedRow, (enrich c).base = c := by
  refine ⟨List.length_map _ _, ?_, fun c => rfl⟩
  rw [df_enriched]
  induction df_cleaned rs with
  | nil => exact List.Forall₂.nil
  | cons c l ih => exact List.Forall₂.cons rfl ih

/-- C6: in `customer_rfm`, a customer whose last purchase is the global
maximum timestamp of the cleaned table has `Recency = 0`, and no
customer's recency is negative.  Recency is computed against the single
global maximum (`max_date`, taken once over the whole cleaned table). -/
theorem c6_recency (rs : List RawRow) (p : Option String × RFMAgg)
    (hp : p ∈ customer_rfm rs) :
    (∀ t, maxDate (df_cleaned rs) = some t →
        p.2.lastPurchaseDate = some t → p.2.recency = some 0)
    ∧ ∀ v, p.2.recency = some v → 0 ≤ v := by
  rw [customer_rfm] at hp
  simp only [groupBy, List.mem_map] at hp
  obtain ⟨c, hc, rfl⟩ := hp
  set g := (df_cleaned rs).filter
    (fun r => decide (r.customerId = c)) with hg
  constructor
  · intro t hmax hlast
    simp only at hlast ⊢
    rw [hmax, hlast]
    simp [datediff]
  · intro v hv
    simp only at hv
    cases hm : maxDate (df_cleaned rs) with
    | none => rw [hm] at hv; exact absurd hv (by simp)
    | some e =>
      cases hgm : maxDate g with
      | none => rw [hm, hgm] at hv; exact absurd hv (by simp)
      | some s =>
        rw [hm, hgm] at hv
        injection hv with hv
        have hs : s ∈ (df_cleaned rs).filterMap (·.invoiceDate) := by
          have hsg : s ∈ g.filterMap (·.invoiceDate) :=
            aggMax_mem _ s hgm
          obtain ⟨a, ha, hga⟩ := List.mem_filterMap.mp hsg
          exact List.mem_filterMap.mpr
            ⟨a, (List.mem_filter.mp ha).1, hga⟩
        have hse : s ≤ e := le_aggMax _ s hs e hm
        rw [← hv, datediff]
        have : (s / 86400 : Nat) ≤ (e / 86400 : Nat) :=
          Nat.div_le_div_right hse
        omega

/-- C7: in `country_sales`, `TotalOrders` is `count("Invoice")`, the
number of rows of the country's group with a non-null invoice — which,
by the cleaning invariant, is the group's full row count, not a count of
distinct invoice identifiers. -/
theorem c7_country_total_orders (rs : List RawRow)
    (p : Option String × CountryAgg) (hp : p ∈ country_sales rs) :
    p.2.totalOrders
      = ((df_cleaned rs).filter fun r => decide (r.country = p.1)).length := by
  rw [country_sales, groupBy] at hp
  obtain ⟨c, hc, rfl⟩ := List.mem_map.mp hp
  show countInvoice _ = _
  rw [countInvoice]
  apply length_filterMap_of_isSome
  intro a ha
  obtain ⟨inv, _, _, _, hinv, _⟩ :=
    df_cleaned_shape rs a (List.mem_filter.mp ha).1
  simp [hinv]

/-- C8 (amended): the Enrichment Stage has no failure path at all: it
always produces one enriched row per cleaned row, and a cleaned row that
lacks a timestamp (which Cleaning can produce, from an unparseable
invoice date) is simply given null calendar fields rather than raising
`InvalidTimestampError`. -/
theorem c8_enrichment_total (rs : List RawRow) :
    (df_enriched rs).length = (df_cleaned rs).length
    ∧ ∀ e ∈ df_enriched rs, e.base.invoiceDate = none →
        e.year = none ∧ e.month = none ∧ e.quarter = none ∧
          e.dayName = none ∧ e.hour = none ∧ e.monthName = none := by
  refine ⟨List.length_map _ _, ?_⟩
  intro e he hd
  rw [df_enriched] at he
  obtain ⟨c, _, rfl⟩ := List.mem_map.mp he
  have hc : c.invoiceDate = none := hd
  simp [enrich, hc]

/-- C8, counterexample to the claim as stated: Cleaning does not
guarantee every row a timestamp (`cBad` has none), and on such a table
Enrichment does not fail — it produces the full table, with null
calendar fields. -/
theorem c8_counterexample :
    (∃ c ∈ df_cleaned [rawBadDate], c.invoiceDate = none)
    ∧ (df_enriched [rawBadDate]).length = (df_cleaned [rawBadDate]).length
    ∧ ∀ e ∈ df_enriched [rawBadDate], e.year = none := by
  have hcl : df_cleaned [rawBadDate] = [cBad] := df_cleaned_rawBadDate
  refine ⟨⟨cBad, by rw [hcl]; exact List.mem_singleton.mpr rfl, rfl⟩,
    List.length_map _ _, ?_⟩
  intro e he
  rw [df_enriched, hcl] at he
  rcases List.mem_singleton.mp he with rfl
  simp [enrich, cBad]

/-- C9: the pipeline is deterministic (this embedding fixes the
deduplication survivor as the first row per key), so two runs on
identical input produce identical cleaned and aggregate tables — in
particular equal as multisets of rows. -/
theorem c9_two_runs_agree (rs₁ rs₂ : List RawRow) (h : rs₁ = rs₂) :
    (df_cleaned rs₁ : Multiset CleanedRow) = (df_cleaned rs₂ : Multiset CleanedRow)
    ∧ (customer_rfm rs₁ : Multiset (Option String × RFMAgg))
        = (customer_rfm rs₂ : Multiset (Option String × RFMAgg))
    ∧ (product_analysis rs₁ :
          Multiset ((Option String × Option String) × ProductAgg))
        = (product_analysis rs₂ :
          Multiset ((Option String × Option String) × ProductAgg))
    ∧ (country_sales rs₁ : Multiset (Option String × CountryAgg))
        = (country_sales rs₂ : Multiset (Option String × CountryAgg))
    ∧ (monthly_trends rs₁ :
          Multiset ((String × Option Nat × Option Nat × Option String) × MonthlyAgg))
        = (monthly_trends rs₂ :
          Multiset ((String × Option Nat × Option Nat × Option String) × MonthlyAgg)) := by
  subst h
  exact ⟨rfl, rfl, rfl, rfl, rfl⟩

/-- C10: `UniqueCustomers` in the product and country summaries is
`countDistinct`, which ignores null customer identifiers, while the
Summary Reporter's `distinct().count()` counts null as one more distinct
value — so when the cleaned table contains an anonymous row, the
reporter's count is the distinct non-null customer count plus one. -/
theorem c10_null_customer_counting (rs : List RawRow)
    (h : ∃ r ∈ df_cleaned rs, r.customerId = none) :
    (∀ p ∈ product_analysis rs, p.2.uniqueCustomers
        = (((df_cleaned rs).filter fun r =>
              decide ((r.stockCode, r.description) = p.1)).filterMap
            (·.customerId)).dedup.length)
    ∧ (∀ p ∈ country_sales rs, p.2.uniqueCustomers
        = (((df_cleaned rs).filter fun r =>
              decide (r.country = p.1)).filterMap
            (·.customerId)).dedup.length)
    ∧ unique_customers rs
        = ((df_cleaned rs).filterMap (·.customerId)).dedup.length + 1 := by
  refine ⟨?_, ?_, ?_⟩
  · intro p hp
    rw [product_analysis, groupBy] at hp
    obtain ⟨c, _, rfl⟩ := List.mem_map.mp hp
    rfl
  · intro p hp
    rw [country_sales, groupBy] at hp
    obtain ⟨c, _, rfl⟩ := List.mem_map.mp hp
    rfl
  · obtain ⟨r, hr, hnone⟩ := h
    have hmem : (none : Option String) ∈ (df_cleaned rs).map (·.customerId) :=
      hnone ▸ List.mem_map_of_mem (·.customerId) hr
    rw [unique_customers, dedup_length_of_mem_none _ hmem]
    congr 2
    rw [List.filterMap_map]
    rfl

/-! ## Witnesses -/

/-- The `customer_rfm` value row of customer `C1` on input `[rawOk]`. -/
def rfm0 : RFMAgg :=
  { lastPurchaseDate := some 1000000
    frequency := 1
    monetaryValue := round2 ((2 : Int) * (3 : Rat))
    recency := some 0 }

/-- The `country_sales` value row of country `UK` on input `[rawOk]`. -/
def cty0 : CountryAgg :=
  { totalRevenue := round2 ((2 : Int) * (3 : Rat))
    totalOrders := 1
    uniqueCustomers := 1 }

/-- The enriched image of `cBad`: all calendar fields null. -/
def eBad : EnrichedRow :=
  { base := cBad
    year := none
    month := none
    quarter := none
    dayName := none
    hour := none
    monthName := none }

/-- C2 witness: on `[rawOk]`, the key of `cOk` occurs among the
candidates and exactly one cleaned row carries it. -/
theorem c2_witness :
    keyOf cOk ∈ (df_preDedup [rawOk]).map keyOf
    ∧ ((df_cleaned [rawOk]).filter
        fun r => decide (keyOf r = keyOf cOk)).length = 1 := by
  have hkey : keyOf cOk ∈ (df_preDedup [rawOk]).map keyOf := by
    norm_num [df_preDedup, cleanRow, rawOk, cOk, keyOf, toTimestamp,
      List.filterMap]
  exact ⟨hkey, (c2_dedup_key_unique [rawOk]).2 (keyOf cOk) hkey⟩

/-- C4 witness: `cOk` is in the cleaned table of `[rawOk]` and its total
amount is the rounded product of its quantity and price. -/
theorem c4_witness :
    cOk ∈ df_cleaned [rawOk]
    ∧ ∃ q p, cOk.quantity = some q ∧ cOk.price = some p ∧
        cOk.totalAmount = some (round2 (q * p)) := by
  have hmem : cOk ∈ df_cleaned [rawOk] := by
    rw [df_cleaned_rawOk]; exact List.mem_singleton.mpr rfl
  exact ⟨hmem, c4_total_amount [rawOk] cOk hmem⟩

/-- C6 witness: on `[rawOk]`, customer `C1`'s last purchase is the global
maximum timestamp and their recency is zero. -/
theorem c6_witness :
    ((some "C1", rfm0) : Option String × RFMAgg) ∈ customer_rfm [rawOk]
    ∧ maxDate (df_cleaned [rawOk]) = some 1000000
    ∧ rfm0.recency = some 0 := by
  have hmem : ((some "C1", rfm0) : Option String × RFMAgg)
      ∈ customer_rfm [rawOk] := by
    simp only [customer_rfm]
    rw [df_cleaned_rawOk]
    norm_num [groupBy, maxDate, aggMax, sumAmt, countInvoice, datediff,
      cOk, rfm0, List.filterMap]
  have hmax : maxDate (df_cleaned [rawOk]) = some 1000000 := by
    rw [df_cleaned_rawOk]
    norm_num [maxDate, aggMax, cOk, List.filterMap]
  exact ⟨hmem, hmax,
    (c6_recency [rawOk] (some "C1", rfm0) hmem).1 1000000 hmax rfl⟩

/-- C7 witness: on `[rawOk]`, the `UK` group's `TotalOrders` equals its
row count. -/
theorem c7_witness :
    ((some "UK", cty0) : Option String × CountryAgg) ∈ country_sales [rawOk]
    ∧ cty0.totalOrders = ((df_cleaned [rawOk]).filter
        fun r => decide (r.country = some "UK")).length := by
  have hmem : ((some "UK", cty0) : Option String × CountryAgg)
      ∈ country_sales [rawOk] := by
    simp only [country_sales]
    rw [df_cleaned_rawOk]
    norm_num [groupBy, sumAmt, countInvoice, countDistinctCustomers,
      cOk, cty0, List.filterMap]
  exact ⟨hmem, c7_country_total_orders [rawOk] (some "UK", cty0) hmem⟩

/-- C8 witness: on `[rawBadDate]`, the timestampless cleaned row is
enriched (not rejected) with null calendar fields. -/
theorem c8_witness :
    eBad ∈ df_enriched [rawBadDate]
    ∧ eBad.base.invoiceDate = none
    ∧ (eBad.year = none ∧ eBad.month = none ∧ eBad.quarter = none ∧
        eBad.dayName = none ∧ eBad.hour = none ∧ eBad.monthName = none) := by
  have hmem : eBad ∈ df_enriched [rawBadDate] := by
    simp only [df_enriched]
    rw [df_cleaned_rawBadDate]
    simp [enrich, cBad, eBad]
  exact ⟨hmem, rfl, (c8_enrichment_total [rawBadDate]).2 eBad hmem rfl⟩

/-- C9 witness: the two runs on the concrete input `[rawOk]` agree. -/
theorem c9_witness :
    (df_cleaned [rawOk] : Multiset CleanedRow)
        = (df_cleaned [rawOk] : Multiset CleanedRow)
    ∧ (customer_rfm [rawOk] : Multiset (Option String × RFMAgg))
        = (customer_rfm [rawOk] : Multiset (Option String × RFMAgg))
    ∧ (product_analysis [rawOk] :
          Multiset ((Option String × Option String) × ProductAgg))
        = (product_analysis [rawOk] :
          Multiset ((Option String × Option String) × ProductAgg))
    ∧ (country_sales [rawOk] : Multiset (Option String × CountryAgg))
        = (country_sales [rawOk] : Multiset (Option String × CountryAgg))
    ∧ (monthly_trends [rawOk] :
          Multiset ((String × Option Nat × Option Nat × Option String) × MonthlyAgg))
        = (monthly_trends [rawOk] :
          Multiset ((String × Option Nat × Option Nat × Option String) × MonthlyAgg)) :=
  c9_two_runs_agree [rawOk] [rawOk] rfl

/-- C10 witness: on `[rawOk, rawBadDate]` (one anonymous row), the
reporter's distinct-customer count is the distinct non-null count plus
one. -/
theorem c10_witness :
    (∃ r ∈ df_cleaned [rawOk, rawBadDate], r.customerId = none)
    ∧ unique_customers [rawOk, rawBadDate]
        = ((df_cleaned [rawOk, rawBadDate]).filterMap
            (·.customerId)).dedup.length + 1 := by
  have hex : ∃ r ∈ df_cleaned [rawOk, rawBadDate], r.customerId = none := by
    refine ⟨cBad, ?_, rfl⟩
    rw [df_cleaned_pair]
    exact List.mem_cons_of_mem _ (List.mem_singleton.mpr rfl)
  exact ⟨hex, (c10_null_customer_counting [rawOk, rawBadDate] hex).2.2⟩

end RetailETL
